import Mathlib

/- Verification development for the two Python scripts of this repository:
   add_autonomous_files.py (the project patcher) and
   SignalAir-iOS/backup_search_temp/create_xcodeproj.py (the project generator).

   Modelling conventions.
   Python strings are modelled as List Char.  The patcher's text operations
   (str.replace and the two re.sub patterns) are embedded as total functions on
   List Char; their semantics were derived from the exact patterns of the source
   (sources_pattern, services_group_pattern, security_group_pattern) under
   Python's leftmost, greedy, non-backtracking behaviour for these patterns
   (nothing follows the trailing star groups, so no backtracking ever occurs).
   Python's \s is modelled over its ASCII members, which are the only whitespace
   characters the project texts contain.
   generate_uuid draws fresh random identifiers; the repository (spec section 3)
   accepts collision-freedom of that source.  Runs are therefore modelled with a
   fresh-identifier counter: the n-th call of a run returns identifier c + n for
   the run's start value c, rendered as its decimal numeral where the identifier
   is spliced into text.  The 24-hex-character shape of a single generate_uuid
   result is modelled separately, at character level, for the claim about it. -/

set_option maxRecDepth 20000

/-- Membership in Python's regex class \s, restricted to its ASCII members
(space, tab, newline, carriage return, vertical tab, form feed). -/
def isPySpace (c : Char) : Bool :=
  c == ' ' || c == '\t' || c == '\n' || c == '\r' || c == '\x0b' || c == '\x0c'

/-- Tests whether pat occurs at the very start of s. -/
def isPre : List Char → List Char → Bool
  | [], _ => true
  | _ :: _, [] => false
  | a :: as, b :: bs => a == b && isPre as bs

/-- Leftmost-occurrence scanner for a literal pattern, in splitting form:
findSplitAux pat s acc walks s, accumulating the skipped characters in
reverse in acc, and returns (skipped prefix, suffix starting at the first
occurrence of pat), or none when pat does not occur.  The splitting form
(rather than an index) is what every matcher here returns; an index would
carry the same information. -/
def findSplitAux (pat : List Char) : List Char → List Char → Option (List Char × List Char)
  | [], acc => if isPre pat [] then some (acc.reverse, []) else none
  | c :: rest, acc =>
    if isPre pat (c :: rest) then some (acc.reverse, c :: rest)
    else findSplitAux pat rest (c :: acc)

/-- Split of s at the first occurrence of pat. -/
def findSplit (pat s : List Char) : Option (List Char × List Char) := findSplitAux pat s []

/-- Substring test, Python's infix operator in for str. -/
def containsSub (pat s : List Char) : Bool := (findSplit pat s).isSome

/-- Worker for countOccur: scans the text left to right; after a match the
next pat.length - 1 characters are skipped (plus the matched head), giving
Python's non-overlapping count semantics for a non-empty pattern. -/
def countOccurAux (pat : List Char) : List Char → Nat → Nat → Nat
  | [], _, acc => acc
  | c :: rest, 0, acc =>
    if isPre pat (c :: rest) then countOccurAux pat rest (pat.length - 1) (acc + 1)
    else countOccurAux pat rest 0 acc
  | _ :: rest, skip + 1, acc => countOccurAux pat rest skip acc

/-- Number of non-overlapping occurrences of pat in s, Python's str.count,
for a non-empty pattern. -/
def countOccur (pat s : List Char) : Nat := countOccurAux pat s 0 0

/-- Worker for replaceAll: scans the text left to right; at an occurrence of
old it emits new and switches to skip mode for the remaining old.length - 1
matched characters, giving Python's non-overlapping left-to-right replacement
for a non-empty pattern. -/
def replaceAllAux (old new : List Char) : List Char → Nat → List Char
  | [], _ => []
  | c :: rest, 0 =>
    if isPre old (c :: rest) then new ++ replaceAllAux old new rest (old.length - 1)
    else c :: replaceAllAux old new rest 0
  | _ :: rest, skip + 1 => replaceAllAux old new rest skip

/-- Python's str.replace: every non-overlapping occurrence of old in s,
scanned left to right, is replaced by new.  The patcher only calls this with
its two (non-empty) literal section-end markers as old. -/
def replaceAll (old new s : List Char) : List Char := replaceAllAux old new s 0

/-- Greedy consumption of the regex tail \s*(?:[^;]+;\s*)*, in splitting
form: returns (consumed prefix, remaining suffix).  acc holds, reversed, the
consumed prefix so far (whose end is the consumption frontier); pend holds,
reversed, the characters seen past the frontier.  Each loop iteration of the
starred group needs at least one character before the next semicolon, so a
semicolon met with an empty pend stops the scan; a semicolon met past a
non-empty pend extends the consumed prefix through it; whitespace met at the
frontier extends the frontier (the \s* atoms).  Nothing follows this
fragment in either of the patcher's patterns, so the greedy engine never
backtracks and this single pass is exact (checked against Python's re on
randomized inputs). -/
def tailSplitAux : List Char → List Char → List Char → List Char × List Char
  | [], acc, pend => (acc.reverse, pend.reverse)
  | c :: rest, acc, pend =>
    if c == ';' then
      match pend with
      | [] => (acc.reverse, ';' :: rest)
      | p :: ps => tailSplitAux rest (';' :: ((p :: ps) ++ acc)) []
    else
      match pend with
      | [] =>
        if isPySpace c then tailSplitAux rest (c :: acc) []
        else tailSplitAux rest acc [c]
      | p :: ps => tailSplitAux rest acc (c :: p :: ps)

/-- Consumption of the regex tail at the start of t: the consumed prefix and
the rest. -/
def tailSplit (t : List Char) : List Char × List Char := tailSplitAux t [] []

/-- Literal opening matched by the head of sources_pattern. -/
def filesOpen : List Char := "files = (".data

/-- Leftmost match of the sources_pattern of the patcher,
r"(files = \(\s*(?:[^;]+;\s*)*)" in splitting form: the pattern begins with
a literal, so its leftmost match starts at the first occurrence of
"files = (" and extends by the greedy tail; the result is (text up to and
including the match, text after the match), or none when there is no
occurrence. -/
def sourcesSplit (s : List Char) : Option (List Char × List Char) :=
  match findSplit filesOpen s with
  | none => none
  | some (pre, suf) =>
    match tailSplit (List.drop filesOpen.length suf) with
    | (consumed, rest) => some (pre ++ filesOpen ++ consumed, rest)

/-- Literal fragment children = ( of the two group patterns. -/
def childrenOpen : List Char := "children = (".data

/-- Same-line scanner for the group patterns, in splitting form: finds the
first occurrence of pat in t that no newline precedes — the lazy fragment
.*? of the group patterns cannot cross a newline (re.DOTALL is not set) and
takes the smallest possible span. -/
def sameLineSplitAux (pat : List Char) : List Char → List Char → Option (List Char × List Char)
  | [], acc => if isPre pat [] then some (acc.reverse, []) else none
  | c :: rest, acc =>
    if isPre pat (c :: rest) then some (acc.reverse, c :: rest)
    else if c == '\n' then none
    else sameLineSplitAux pat rest (c :: acc)

/-- Split of t at the first same-line occurrence of pat. -/
def sameLineSplit (pat t : List Char) : Option (List Char × List Char) :=
  sameLineSplitAux pat t []

/-- Leftmost match of a group pattern
r"(ANCHOR.*?children = \(\s*(?:[^;]+;\s*)*)" in splitting form: the engine
tries each start position in order, a start succeeds exactly when the anchor
occurs there with children = ( later on the same line, and the greedy tail
then extends the match (checked against Python's re on randomized inputs).
Returns (text up to and including the match, text after it). -/
def groupSplitAux (anchor : List Char) : List Char → List Char → Option (List Char × List Char)
  | [], _ => none
  | c :: rest, acc =>
    if isPre anchor (c :: rest) then
      match sameLineSplit childrenOpen (List.drop anchor.length (c :: rest)) with
      | some (mid, fromChildren) =>
        match tailSplit (List.drop childrenOpen.length fromChildren) with
        | (consumed, rest2) =>
          some (acc.reverse ++ anchor ++ mid ++ childrenOpen ++ consumed, rest2)
      | none => groupSplitAux anchor rest (c :: acc)
    else groupSplitAux anchor rest (c :: acc)

/-- Leftmost match of the group pattern for anchor in s. -/
def groupSplit (anchor s : List Char) : Option (List Char × List Char) :=
  groupSplitAux anchor s []

/-- One re.sub(sources_pattern, r"\1" + line + "\n", s, count=1): the whole
pattern is capture group 1 and the replacement is that group followed by the
new line, so the substitution appends line and a newline at the end of the
leftmost match, or leaves s unchanged when there is no match. -/
def sourcesSub (line s : List Char) : List Char :=
  match sourcesSplit s with
  | none => s
  | some (pre, post) => pre ++ line ++ '\n' :: post

/-- One re.sub(group_pattern, r"\1" + line + "\n", s, count=1) for the given
anchor, appending at the end of the leftmost match, or s unchanged when the
pattern has no match. -/
def groupSub (anchor line s : List Char) : List Char :=
  match groupSplit anchor s with
  | none => s
  | some (pre, post) => pre ++ line ++ '\n' :: post

/-- One (name, path) descriptor of the patcher's files_to_add list. -/
structure FileInfo where
  name : List Char
  path : List Char
deriving DecidableEq

/-- Literal patch list of add_autonomous_files.py. -/
def files_to_add : List FileInfo :=
  [⟨"AutonomousSystemManager.swift".data,
    "SignalAir/Core/Services/AutonomousSystemManager.swift".data⟩,
   ⟨"AutomaticSecurityMonitor.swift".data,
    "SignalAir/Core/Security/AutomaticSecurityMonitor.swift".data⟩,
   ⟨"AutomaticBanSystem.swift".data,
    "SignalAir/Core/Security/AutomaticBanSystem.swift".data⟩,
   ⟨"AutomaticSystemMaintenance.swift".data,
    "SignalAir/Core/Services/AutomaticSystemMaintenance.swift".data⟩,
   ⟨"SystemHealthMonitor.swift".data,
    "SignalAir/Core/Services/SystemHealthMonitor.swift".data⟩]

/-- Decimal rendering of a counter-modelled identifier when it is spliced
into the patched text (see the modelling note at the top of this file). -/
def uuidChars (n : Nat) : List Char := (Nat.repr n).data

/-- First loop of add_files_to_xcode_project: the run's identifier
assignments, in iteration order.  For each descriptor the script first draws
file_refs[name] and then build_files[name], so the i-th descriptor receives
the file-reference identifier c + 2i and the build-file identifier
c + 2i + 1. -/
def assignIds : List FileInfo → Nat → List (FileInfo × Nat × Nat)
  | [], _ => []
  | fi :: rest, c => (fi, c, c + 1) :: assignIds rest (c + 2)

/-- Lookup in the run's assignments by descriptor name with Python's
dictionary semantics: the latest assignment for a key wins. -/
def dictLast : List (FileInfo × Nat × Nat) → List Char → Option (Nat × Nat)
  | [], _ => none
  | (fi, fr, bf) :: rest, n =>
    match dictLast rest n with
    | some p => some p
    | none => if fi.name == n then some (fr, bf) else none

/-- Identifier file_refs[n] of the run. -/
def frOf (a : List (FileInfo × Nat × Nat)) (n : List Char) : Nat :=
  ((dictLast a n).getD (0, 0)).1

/-- Identifier build_files[n] of the run. -/
def bfOf (a : List (FileInfo × Nat × Nat)) (n : List Char) : Nat :=
  ((dictLast a n).getD (0, 0)).2

/-- File-reference line template of the patcher (file_ref_line). -/
def fileRefLine (fr : Nat) (n : List Char) : List Char :=
  "\t\t".data ++ uuidChars fr ++ " /* ".data ++ n ++
    " */ = \x7bisa = PBXFileReference; lastKnownFileType = sourcecode.swift; path = ".data ++
    n ++ "; sourceTree = \"<group>\"; \x7d;".data

/-- Build-file line template of the patcher (build_file_line). -/
def buildFileLine (bf fr : Nat) (n : List Char) : List Char :=
  "\t\t".data ++ uuidChars bf ++ " /* ".data ++ n ++
    " in Sources */ = \x7bisa = PBXBuildFile; fileRef = ".data ++ uuidChars fr ++
    " /* ".data ++ n ++ " */; \x7d;".data

/-- Sources-phase entry template of the patcher (sources_line). -/
def sourcesLine (bf : Nat) (n : List Char) : List Char :=
  "\t\t\t\t".data ++ uuidChars bf ++ " /* ".data ++ n ++ " in Sources */,".data

/-- Group-children entry template of the patcher (group_line). -/
def groupLine (fr : Nat) (n : List Char) : List Char :=
  "\t\t\t\t".data ++ uuidChars fr ++ " /* ".data ++ n ++ " */,".data

/-- Python's "\n".join. -/
def joinNL : List (List Char) → List Char
  | [] => []
  | [x] => x
  | x :: y :: rest => x ++ '\n' :: joinNL (y :: rest)

/-- Literal marker closing the file-references section. -/
def fileRefMarker : List Char := "/* End PBXFileReference section */".data

/-- Literal marker closing the build-files section. -/
def buildFileMarker : List Char := "/* End PBXBuildFile section */".data

/-- Literal anchor of services_group_pattern. -/
def servicesAnchor : List Char := "Core/Services".data

/-- Literal anchor of security_group_pattern. -/
def securityAnchor : List Char := "Core/Security".data

/-- Substring the patcher tests a path against for the services group. -/
def servicesNeedle : List Char := "Services".data

/-- Substring the patcher tests a path against for the security group. -/
def securityNeedle : List Char := "Security".data

/-- File-reference insertion step: the joined new lines plus a newline are
placed before (every occurrence of) the file-references end marker. -/
def fileRefStep (a : List (FileInfo × Nat × Nat)) (L : List FileInfo) (s : List Char) : List Char :=
  replaceAll fileRefMarker
    ((joinNL (L.map fun fi => fileRefLine (frOf a fi.name) fi.name) ++ ['\n']) ++ fileRefMarker) s

/-- Build-file insertion step: the joined new lines plus a newline are placed
before (every occurrence of) the build-files end marker. -/
def buildFileStep (a : List (FileInfo × Nat × Nat)) (L : List FileInfo) (s : List Char) : List Char :=
  replaceAll buildFileMarker
    ((joinNL (L.map fun fi => buildFileLine (bfOf a fi.name) (frOf a fi.name) fi.name) ++ ['\n']) ++
      buildFileMarker) s

/-- Sources-phase step: one single-count re.sub with sources_pattern per
descriptor, in list order, each on the text produced by the previous one. -/
def sourcesStep (a : List (FileInfo × Nat × Nat)) (L : List FileInfo) (s : List Char) : List Char :=
  L.foldl (fun t fi => sourcesSub (sourcesLine (bfOf a fi.name) fi.name) t) s

/-- Services-group step: one single-count re.sub with services_group_pattern
per descriptor whose path contains "Services". -/
def servicesStep (a : List (FileInfo × Nat × Nat)) (L : List FileInfo) (s : List Char) : List Char :=
  L.foldl
    (fun t fi =>
      if containsSub servicesNeedle fi.path then
        groupSub servicesAnchor (groupLine (frOf a fi.name) fi.name) t
      else t) s

/-- Security-group step: one single-count re.sub with security_group_pattern
per descriptor whose path contains "Security". -/
def securityStep (a : List (FileInfo × Nat × Nat)) (L : List FileInfo) (s : List Char) : List Char :=
  L.foldl
    (fun t fi =>
      if containsSub securityNeedle fi.path then
        groupSub securityAnchor (groupLine (frOf a fi.name) fi.name) t
      else t) s

/-- In-memory text transformation of add_files_to_xcode_project for an
arbitrary descriptor list: identifier assignment followed by the five
insertion passes in source order.  c is the fresh-identifier counter of the
run (the script draws a fresh random identifier per call; see the modelling
note).  Reading the project file before and writing it back after are the
only omitted effects. -/
def add_files_core (L : List FileInfo) (c : Nat) (content : List Char) : List Char :=
  let a := assignIds L c
  securityStep a L (servicesStep a L (sourcesStep a L (buildFileStep a L (fileRefStep a L content))))

/-- The script's transformation proper, on its literal files_to_add list. -/
def add_files_to_xcode_project (c : Nat) (content : List Char) : List Char :=
  add_files_core files_to_add c content

/-- One emitted line of the PBXBuildFile section: the build-file identifier,
the referenced file-reference identifier, and the relative path of the Swift
file (generate_project_pbxproj also stores the two identifiers in
build_file_refs and file_refs under that path). -/
structure BuildFileEntry where
  id : Nat
  fileRef : Nat
  file : String
deriving DecidableEq

/-- One emitted line of the PBXFileReference section: identifier and the
emitted path value. -/
structure FileRefEntry where
  id : Nat
  path : String
deriving DecidableEq

/-- The PBXGroup section: the main group identifier and its two children
identifiers, both of which the source mints inline inside the template. -/
structure GroupSection where
  id : Nat
  children : List Nat
deriving DecidableEq

/-- The PBXNativeTarget section: identifier, the referenced build
configuration list, the buildPhases list (first the inline-minted Sources
reference, then frameworks_uuid), and the product reference (app_uuid). -/
structure TargetSection where
  id : Nat
  buildConfigurationList : Nat
  buildPhases : List Nat
  productReference : Nat
deriving DecidableEq

/-- The PBXProject section: identifier, the inline-minted build configuration
list reference, the mainGroup reference, the inline-minted productRefGroup
reference, and the targets list. -/
structure ProjectSection where
  id : Nat
  buildConfigurationList : Nat
  mainGroup : Nat
  productRefGroup : Nat
  targets : List Nat
deriving DecidableEq

/-- The PBXSourcesBuildPhase section: its inline-minted identifier and its
files list of (build-file identifier, path comment) pairs. -/
structure SourcesPhaseSection where
  id : Nat
  files : List (Nat × String)
deriving DecidableEq

/-- One XCConfigurationList section: identifier and the identifiers of its
two build configurations. -/
structure ConfigListSection where
  id : Nat
  buildConfigurations : List Nat
deriving DecidableEq

/-- Identifier-level model of the text generate_project_pbxproj returns: one
field per emitted section, each recording exactly the identifiers (and path
strings) the corresponding template lines embed.  The fixed build-setting
constants of the XCBuildConfiguration blocks carry no identifiers except the
four configuration identifiers recorded here. -/
structure Pbxproj where
  buildFiles : List BuildFileEntry
  fileRefs : List FileRefEntry
  frameworksPhase : Nat
  mainGroup : GroupSection
  target : TargetSection
  project : ProjectSection
  sourcesPhase : SourcesPhaseSection
  projectConfigs : List Nat
  targetConfigs : List Nat
  targetConfigList : ConfigListSection
  projectConfigList : ConfigListSection
  rootObject : Nat
  bundleId : String
  firstId : Nat
  nextId : Nat
deriving DecidableEq

/-- Loop of the build-files section (lines 141-146 of create_xcodeproj.py):
the i-th discovered file draws build_file_uuid = c + 2i and then
file_ref_uuid = c + 2i + 1 and one PBXBuildFile line is emitted per file,
in discovery order. -/
def bfAssign : List String → Nat → List BuildFileEntry
  | [], _ => []
  | f :: fs, c => ⟨c, c + 1, f⟩ :: bfAssign fs (c + 2)

/-- Python dictionary lookup over the emitted build-file entries keyed by
file path: the latest assignment wins. -/
def genDictLast : List BuildFileEntry → String → Option BuildFileEntry
  | [], _ => none
  | e :: rest, f =>
    match genDictLast rest f with
    | some r => some r
    | none => if e.file == f then some e else none

/-- Value self.file_refs[f] read back in the file-references loop. -/
def frIdOf (bfs : List BuildFileEntry) (f : String) : Nat :=
  match genDictLast bfs f with
  | some e => e.fileRef
  | none => 0

/-- Value self.build_file_refs[f] read back in the sources-phase loop. -/
def bfIdOf (bfs : List BuildFileEntry) (f : String) : Nat :=
  match genDictLast bfs f with
  | some e => e.id
  | none => 0

/-- Identifier-level embedding of generate_project_pbxproj.  swift_files is
the list os.walk discovery produces (relative paths, in traversal order); the
eighteen-plus-2N generate_uuid calls of one run are numbered from c in the
exact evaluation order of the source: the four leading draws (lines 123-126),
the two per-file draws (lines 142-143), app and Info.plist (lines 154-155),
frameworks (line 169), then the seven inline draws of the big template in
f-string order (group children at lines 183-184, the Sources entry of
buildPhases at line 195, the PBXProject configuration-list reference at line
222, productRefGroup at line 231, the PBXSourcesBuildPhase identifier at line
241), the four configuration identifiers (lines 261-262 and 386-387), and the
inline project-level XCConfigurationList identifier (line 459). -/
def generate_project_pbxproj (project_name bundle_id : String) (swift_files : List String)
    (c : Nat) : Pbxproj :=
  let project_uuid := c
  let main_group_uuid := c + 1
  let target_uuid := c + 2
  let build_config_list_uuid := c + 3
  let buildFiles := bfAssign swift_files (c + 4)
  let c1 := c + 4 + 2 * swift_files.length
  let app_uuid := c1
  let info_plist_uuid := c1 + 1
  let frameworks_uuid := c1 + 2
  let child1 := c1 + 3
  let child2 := c1 + 4
  let sources_ref_in_target := c1 + 5
  let project_cfg_list_ref := c1 + 6
  let product_ref_group := c1 + 7
  let sources_section_uuid := c1 + 8
  let debug_config_uuid := c1 + 9
  let release_config_uuid := c1 + 10
  let target_debug_uuid := c1 + 11
  let target_release_uuid := c1 + 12
  let project_cfg_list_uuid := c1 + 13
  { buildFiles := buildFiles
    fileRefs :=
      ⟨app_uuid, project_name ++ ".app"⟩ :: ⟨info_plist_uuid, "Info.plist"⟩ ::
        swift_files.map fun f => ⟨frIdOf buildFiles f, f⟩
    frameworksPhase := frameworks_uuid
    mainGroup := ⟨main_group_uuid, [child1, child2]⟩
    target := ⟨target_uuid, build_config_list_uuid, [sources_ref_in_target, frameworks_uuid],
      app_uuid⟩
    project := ⟨project_uuid, project_cfg_list_ref, main_group_uuid, product_ref_group,
      [target_uuid]⟩
    sourcesPhase := ⟨sources_section_uuid, swift_files.map fun f => (bfIdOf buildFiles f, f)⟩
    projectConfigs := [debug_config_uuid, release_config_uuid]
    targetConfigs := [target_debug_uuid, target_release_uuid]
    targetConfigList := ⟨build_config_list_uuid, [target_debug_uuid, target_release_uuid]⟩
    projectConfigList := ⟨project_cfg_list_uuid, [debug_config_uuid, release_config_uuid]⟩
    rootObject := project_uuid
    bundleId := bundle_id
    firstId := c
    nextId := c1 + 14 }

/-- Every identifier one generate_project_pbxproj run mints, one entry per
generate_uuid call, in call order: the four leading draws, the two per-file
draws, and the fourteen remaining draws. -/
def mintedIds (swift_files : List String) (c : Nat) : List Nat :=
  [c, c + 1, c + 2, c + 3] ++
    (bfAssign swift_files (c + 4)).flatMap (fun e => [e.id, e.fileRef]) ++
    List.range' (c + 4 + 2 * swift_files.length) 14

/-- Lowercase hexadecimal digit character for a value below sixteen. -/
def hexChar (n : Nat) : Char :=
  if n < 10 then Char.ofNat (48 + n) else Char.ofNat (87 + n)

/-- The i-th (most significant first) of the thirty-two hexadecimal nibbles
of the 128-bit value r. -/
def hexDigit (r i : Nat) : Nat := r / 16 ^ (31 - i) % 16

/-- The thirty-two lowercase hex characters of the 128-bit value r. -/
def uuidHex (r : Nat) : List Char :=
  (List.range 32).map fun i => hexChar (hexDigit r i)

/-- Canonical text of a UUID over the 128-bit value r, the result of
str(uuid.uuid4()) for that value: the thirty-two hex characters grouped
8-4-4-4-12 with dash separators. -/
def uuid4Text (r : Nat) : List Char :=
  let h := uuidHex r
  List.take 8 h ++ '-' ::
    (List.take 4 (List.drop 8 h) ++ '-' ::
      (List.take 4 (List.drop 12 h) ++ '-' ::
        (List.take 4 (List.drop 16 h) ++ '-' :: List.drop 20 h)))

/-- Python str.upper restricted to the ASCII range the UUID text draws
from. -/
def pyToUpper (c : Char) : Char :=
  if 'a' ≤ c ∧ c ≤ 'z' then Char.ofNat (c.toNat - 32) else c

/-- Character-level model of generate_uuid (identical in both scripts) over
the random 128-bit value r the underlying uuid4 call draws:
str(uuid.uuid4()).replace('-', '').upper()[:24]. -/
def generate_uuid (r : Nat) : List Char :=
  List.take 24 (List.map pyToUpper (List.filter (fun c => c != '-') (uuid4Text r)))

example : isPre "ab".data "abc".data = true := by decide

/-- Helper: a successful dictionary lookup returns one of the emitted
build-file entries, keyed by the looked-up path. -/
theorem genDictLast_mem {f : String} {e : BuildFileEntry} {bfs : List BuildFileEntry}
    (h : genDictLast bfs f = some e) : e ∈ bfs ∧ e.file = f := by
  induction bfs with
  | nil => simp [genDictLast] at h
  | cons x rest ih =>
    simp only [genDictLast] at h
    cases hr : genDictLast rest f with
    | some r =>
      rw [hr] at h
      obtain rfl := Option.some.inj h
      exact ⟨List.mem_cons_of_mem _ (ih hr).1, (ih hr).2⟩
    | none =>
      rw [hr] at h
      by_cases hx : x.file = f
      · rw [if_pos (beq_iff_eq.mpr hx)] at h
        obtain rfl := Option.some.inj h
        exact ⟨List.mem_cons_self _ _, hx⟩
      · rw [if_neg (by simpa using hx)] at h
        cases h

/-- Helper: a path that names some emitted entry has a successful
dictionary lookup. -/
theorem genDictLast_isSome {f : String} {bfs : List BuildFileEntry}
    (h : f ∈ bfs.map (fun e => e.file)) : ∃ e, genDictLast bfs f = some e := by
  induction bfs with
  | nil => simp at h
  | cons x rest ih =>
    simp only [genDictLast]
    cases hr : genDictLast rest f with
    | some r => exact ⟨r, rfl⟩
    | none =>
      have hx : x.file = f := by
        simp only [List.map_cons, List.mem_cons] at h
        rcases h with h | h
        · exact h.symm
        · obtain ⟨e, he⟩ := ih h
          rw [he] at hr
          cases hr
      rw [if_pos (beq_iff_eq.mpr hx)]
      exact ⟨x, rfl⟩

/-- Helper: when the emitted paths are pairwise distinct, the lookup for a
member's path returns that member. -/
theorem genDictLast_self {bfs : List BuildFileEntry}
    (hnd : (bfs.map (fun e => e.file)).Nodup) {e : BuildFileEntry} (he : e ∈ bfs) :
    genDictLast bfs e.file = some e := by
  induction bfs with
  | nil => cases he
  | cons x rest ih =>
    simp only [List.map_cons, List.nodup_cons] at hnd
    rcases List.mem_cons.mp he with rfl | hmem
    · have hnone : genDictLast rest e.file = none := by
        cases hr : genDictLast rest e.file with
        | none => rfl
        | some r =>
          obtain ⟨hr1, hr2⟩ := genDictLast_mem hr
          exact absurd (hr2 ▸ List.mem_map_of_mem (fun e => e.file) hr1) hnd.1
      simp only [genDictLast, hnone]
      rw [if_pos (beq_iff_eq.mpr rfl)]
    · have hres := ih hnd.2 hmem
      simp only [genDictLast, hres]

/-- Helper: the emitted build-file entries carry the discovered paths, in
order. -/
theorem bfAssign_map_file (fs : List String) (c : Nat) :
    (bfAssign fs c).map (fun e => e.file) = fs := by
  induction fs generalizing c with
  | nil => rfl
  | cons f rest ih => simp [bfAssign, ih]

/-- Helper: the identifiers drawn in the build-files loop are the
consecutive counter values, build-file before file-reference per file. -/
theorem bfAssign_flatRange (fs : List String) (c : Nat) :
    (bfAssign fs c).flatMap (fun e => [e.id, e.fileRef]) =
      List.range' c (2 * fs.length) := by
  induction fs generalizing c with
  | nil => rfl
  | cons f rest ih =>
    simp only [bfAssign, List.flatMap_cons, ih, List.length_cons]
    rw [Nat.mul_succ, List.range'_succ c (2 * rest.length + 1), List.range'_succ]
    rfl

/-- Helper: the full mint trace of a run is the consecutive counter range,
hence free of reuse. -/
theorem mintedIds_eq_range (fs : List String) (c : Nat) :
    mintedIds fs c = List.range' c (18 + 2 * fs.length) := by
  unfold mintedIds
  rw [bfAssign_flatRange]
  have h4 : [c, c + 1, c + 2, c + 3] = List.range' c 4 := by
    simp [List.range'_succ]
  rw [h4]
  have hA : List.range' c 4 ++ List.range' (c + 4) (2 * fs.length) =
      List.range' c (2 * fs.length + 4) := by
    have h := List.range'_append c 4 (2 * fs.length) 1
    simp only [one_mul] at h
    exact h
  rw [hA]
  have hB : List.range' c (2 * fs.length + 4) ++ List.range' (c + 4 + 2 * fs.length) 14 =
      List.range' c (14 + (2 * fs.length + 4)) := by
    have h := List.range'_append c (2 * fs.length + 4) 14 1
    have harg : c + 1 * (2 * fs.length + 4) = c + 4 + 2 * fs.length := by omega
    rw [harg] at h
    exact h
  rw [hB]
  congr 1
  omega

/-- Helper: every entry of the emitted sources-phase files list carries the
build-file identifier of some emitted PBXBuildFile entry for the same file. -/
theorem gen_sources_refs_minted (project_name bundle_id : String) (fs : List String) (c : Nat) :
    ∀ p ∈ (generate_project_pbxproj project_name bundle_id fs c).sourcesPhase.files,
      ∃ e, e ∈ (generate_project_pbxproj project_name bundle_id fs c).buildFiles ∧
        e.id = p.1 ∧ e.file = p.2 := by
  intro p hp
  simp only [generate_project_pbxproj, List.mem_map] at hp
  obtain ⟨f, hf, rfl⟩ := hp
  have hmem : f ∈ (bfAssign fs (c + 4)).map (fun e => e.file) := by
    rw [bfAssign_map_file]; exact hf
  obtain ⟨e, he⟩ := genDictLast_isSome hmem
  obtain ⟨he1, he2⟩ := genDictLast_mem he
  refine ⟨e, ?_, ?_, he2⟩
  · simpa [generate_project_pbxproj] using he1
  · simp [bfIdOf, he]

/-- Helper: with pairwise-distinct discovered paths, every emitted
PBXBuildFile entry's file-reference identifier is emitted in the
PBXFileReference section with the entry's path as path value. -/
theorem gen_fileRefs_minted (project_name bundle_id : String) (fs : List String) (c : Nat)
    (hnd : fs.Nodup) :
    ∀ e ∈ (generate_project_pbxproj project_name bundle_id fs c).buildFiles,
      (⟨e.fileRef, e.file⟩ : FileRefEntry) ∈
        (generate_project_pbxproj project_name bundle_id fs c).fileRefs := by
  intro e he
  simp only [generate_project_pbxproj] at he ⊢
  have hnd' : ((bfAssign fs (c + 4)).map (fun e => e.file)).Nodup := by
    rw [bfAssign_map_file]; exact hnd
  have hlook := genDictLast_self hnd' he
  have hfile : e.file ∈ fs := by
    rw [← bfAssign_map_file fs (c + 4)]
    exact List.mem_map_of_mem _ he
  refine List.mem_cons_of_mem _ (List.mem_cons_of_mem _ ?_)
  refine List.mem_map.mpr ⟨e.file, hfile, ?_⟩
  simp [frIdOf, hlook]

/-- Claim C1, amended: in every generate_project_pbxproj run no identifier
is drawn twice (the mint trace is duplicate-free), and every identifier a
later section references — the file-reference identifiers cited by the
PBXFileReference section, the sources-phase entries, the frameworks build
phase in the target's buildPhases, the product reference, the target's build
configuration list, mainGroup, the targets list, the rootObject, and the
members of both configuration lists — was minted earlier in the same run for
that entity; the exceptions, forced by the counterexample, are the Sources
entry of the target's buildPhases, the PBXProject section's configuration
list and productRefGroup references, and the main group's two children,
which are minted inline at the point of use and match no emitted entity. -/
theorem c1_reference_discipline_amended (project_name bundle_id : String) (fs : List String)
    (c : Nat) (hnd : fs.Nodup) :
    (mintedIds fs c).Nodup ∧
      (∀ p ∈ (generate_project_pbxproj project_name bundle_id fs c).sourcesPhase.files,
        ∃ e, e ∈ (generate_project_pbxproj project_name bundle_id fs c).buildFiles ∧
          e.id = p.1 ∧ e.file = p.2) ∧
      (∀ e ∈ (generate_project_pbxproj project_name bundle_id fs c).buildFiles,
        (⟨e.fileRef, e.file⟩ : FileRefEntry) ∈
          (generate_project_pbxproj project_name bundle_id fs c).fileRefs) ∧
      (generate_project_pbxproj project_name bundle_id fs c).rootObject =
        (generate_project_pbxproj project_name bundle_id fs c).project.id ∧
      (generate_project_pbxproj project_name bundle_id fs c).project.mainGroup =
        (generate_project_pbxproj project_name bundle_id fs c).mainGroup.id ∧
      (generate_project_pbxproj project_name bundle_id fs c).project.targets =
        [(generate_project_pbxproj project_name bundle_id fs c).target.id] ∧
      (generate_project_pbxproj project_name bundle_id fs c).target.buildConfigurationList =
        (generate_project_pbxproj project_name bundle_id fs c).targetConfigList.id ∧
      (∃ fr ∈ (generate_project_pbxproj project_name bundle_id fs c).fileRefs,
        fr.id = (generate_project_pbxproj project_name bundle_id fs c).target.productReference) ∧
      (generate_project_pbxproj project_name bundle_id fs c).frameworksPhase ∈
        (generate_project_pbxproj project_name bundle_id fs c).target.buildPhases ∧
      (generate_project_pbxproj project_name bundle_id fs c).targetConfigList.buildConfigurations =
        (generate_project_pbxproj project_name bundle_id fs c).targetConfigs ∧
      (generate_project_pbxproj project_name bundle_id fs c).projectConfigList.buildConfigurations =
        (generate_project_pbxproj project_name bundle_id fs c).projectConfigs := by
  refine ⟨?_, gen_sources_refs_minted project_name bundle_id fs c,
    gen_fileRefs_minted project_name bundle_id fs c hnd, rfl, rfl, rfl, rfl, ?_, ?_, rfl, rfl⟩
  · rw [mintedIds_eq_range]
    exact List.nodup_range' _ _
  · exact ⟨⟨c + 4 + 2 * fs.length, project_name ++ ".app"⟩, List.mem_cons_self _ _, rfl⟩
  · simp [generate_project_pbxproj]

/-- Witness for C1's amended theorem at one concrete input. -/
theorem c1_reference_discipline_witness :
    (mintedIds ["A.swift"] 0).Nodup ∧
      ∃ e, e ∈ (generate_project_pbxproj "Demo" "com.example.demo" ["A.swift"] 0).buildFiles ∧
        e.id = 4 ∧ e.file = "A.swift" :=
  ⟨(c1_reference_discipline_amended "Demo" "com.example.demo" ["A.swift"] 0 (by decide)).1,
    (c1_reference_discipline_amended "Demo" "com.example.demo" ["A.swift"] 0 (by decide)).2.1
      (4, "A.swift") (by decide)⟩

/-- Claim C2: every build-file identifier listed in the emitted
PBXSourcesBuildPhase files list was minted and emitted as an entry of the
PBXBuildFile section of the same output, for the same file. -/
theorem c2_sources_refs_closure (project_name bundle_id : String) (fs : List String) (c : Nat) :
    ∀ p ∈ (generate_project_pbxproj project_name bundle_id fs c).sourcesPhase.files,
      ∃ e, e ∈ (generate_project_pbxproj project_name bundle_id fs c).buildFiles ∧
        e.id = p.1 ∧ e.file = p.2 :=
  gen_sources_refs_minted project_name bundle_id fs c

/-- Witness for C2 at one concrete input. -/
theorem c2_sources_refs_closure_witness :
    ∃ e, e ∈ (generate_project_pbxproj "Demo" "com.example.demo" ["A.swift"] 0).buildFiles ∧
      e.id = 4 ∧ e.file = "A.swift" :=
  c2_sources_refs_closure "Demo" "com.example.demo" ["A.swift"] 0 (4, "A.swift") (by decide)

/-- Claim C3: for every duplicate-free discovered source list (directory
traversal yields pairwise-distinct relative paths), the emitted
PBXSourcesBuildPhase files list has exactly one entry per discovered file:
its length equals the number of files, its entries carry the files in
order (no omission), and it contains no duplicate entry. -/
theorem c3_sources_entry_count (project_name bundle_id : String) (fs : List String) (c : Nat)
    (hnd : fs.Nodup) :
    ((generate_project_pbxproj project_name bundle_id fs c).sourcesPhase.files).length =
        fs.length ∧
      ((generate_project_pbxproj project_name bundle_id fs c).sourcesPhase.files).map Prod.snd =
        fs ∧
      ((generate_project_pbxproj project_name bundle_id fs c).sourcesPhase.files).Nodup := by
  have hmap :
      ((generate_project_pbxproj project_name bundle_id fs c).sourcesPhase.files).map Prod.snd =
        fs := by
    simp only [generate_project_pbxproj, List.map_map]
    have hcomp : (Prod.snd ∘ fun f => (bfIdOf (bfAssign fs (c + 4)) f, f)) = id := rfl
    rw [hcomp, List.map_id]
  refine ⟨?_, hmap, ?_⟩
  · simp [generate_project_pbxproj]
  · exact List.Nodup.of_map Prod.snd (by rw [hmap]; exact hnd)

/-- Witness for C3 at one concrete input. -/
theorem c3_sources_entry_count_witness :
    ((generate_project_pbxproj "Demo" "com.example.demo"
        ["A.swift", "sub/B.swift"] 0).sourcesPhase.files).length = 2 ∧
      ((generate_project_pbxproj "Demo" "com.example.demo"
          ["A.swift", "sub/B.swift"] 0).sourcesPhase.files).map Prod.snd =
        ["A.swift", "sub/B.swift"] ∧
      ((generate_project_pbxproj "Demo" "com.example.demo"
          ["A.swift", "sub/B.swift"] 0).sourcesPhase.files).Nodup :=
  c3_sources_entry_count "Demo" "com.example.demo" ["A.swift", "sub/B.swift"] 0 (by decide)

/-- Claim C9: for project name "Demo" and discovered files A.swift and
sub/B.swift, the generated PBXBuildFile section holds exactly two entries,
one per file; the PBXFileReference lines for them carry the relative path
(sub/B.swift, not the bare name B.swift) as path value; and the
PBXSourcesBuildPhase files list holds exactly those two build-file
identifiers. -/
theorem c9_demo_two_files :
    (generate_project_pbxproj "Demo" "com.example.demo" ["A.swift", "sub/B.swift"] 0).buildFiles =
        [⟨4, 5, "A.swift"⟩, ⟨6, 7, "sub/B.swift"⟩] ∧
      (generate_project_pbxproj "Demo" "com.example.demo" ["A.swift", "sub/B.swift"] 0).fileRefs =
        [⟨8, "Demo.app"⟩, ⟨9, "Info.plist"⟩, ⟨5, "A.swift"⟩, ⟨7, "sub/B.swift"⟩] ∧
      (generate_project_pbxproj "Demo" "com.example.demo"
          ["A.swift", "sub/B.swift"] 0).sourcesPhase.files =
        [(4, "A.swift"), (6, "sub/B.swift")] := by
  refine ⟨?_, ?_, ?_⟩ <;> rfl

/-- Helper: when a pattern occurs nowhere past a scanned prefix, it occurs
neither at the current head nor further on. -/
theorem findSplitAux_none_elim {pat : List Char} {c : Char} {rest acc : List Char}
    (h : findSplitAux pat (c :: rest) acc = none) :
    isPre pat (c :: rest) = false ∧ findSplitAux pat rest (c :: acc) = none := by
  simp only [findSplitAux] at h
  cases hp : isPre pat (c :: rest) with
  | true => rw [if_pos hp] at h; cases h
  | false => rw [if_neg (by simp [hp])] at h; exact ⟨rfl, h⟩

/-- Helper: Python's str.replace leaves a text unchanged when the pattern
does not occur in it. -/
theorem replaceAllAux_not_contained {old new : List Char} :
    ∀ (s acc : List Char), findSplitAux old s acc = none → replaceAllAux old new s 0 = s := by
  intro s
  induction s with
  | nil => intro acc _; rfl
  | cons c rest ih =>
    intro acc h
    obtain ⟨hpre, htail⟩ := findSplitAux_none_elim h
    simp only [replaceAllAux, hpre, Bool.false_eq_true, if_false]
    rw [ih _ htail]

/-- Helper: replaceAll leaves a text unchanged when the pattern is absent. -/
theorem replaceAll_not_contained {old new s : List Char} (h : containsSub old s = false) :
    replaceAll old new s = s := by
  have hnone : findSplitAux old s [] = none := by
    cases hf : findSplitAux old s [] with
    | none => rfl
    | some p => rw [containsSub, findSplit, hf] at h; cases h
  exact replaceAllAux_not_contained s [] hnone

/-- Helper: a sources-pattern substitution leaves a text unchanged when
"files = (" does not occur in it. -/
theorem sourcesSub_not_contained (line s : List Char) (h : containsSub filesOpen s = false) :
    sourcesSub line s = s := by
  have hnone : findSplit filesOpen s = none := by
    cases hf : findSplit filesOpen s with
    | none => rfl
    | some p => rw [containsSub, hf] at h; cases h
  simp [sourcesSub, sourcesSplit, hnone]

/-- Helper: a group-pattern substitution leaves a text unchanged when the
pattern has no match. -/
theorem groupSub_no_match (anchor line s : List Char) (h : groupSplit anchor s = none) :
    groupSub anchor line s = s := by
  simp [groupSub, h]

/-- Helper: the sources-phase pass leaves a text unchanged when
"files = (" does not occur in it. -/
theorem sourcesStep_no_match (a : List (FileInfo × Nat × Nat)) (L : List FileInfo)
    (s : List Char) (h : containsSub filesOpen s = false) : sourcesStep a L s = s := by
  induction L with
  | nil => rfl
  | cons fi rest ih =>
    have h1 : sourcesSub (sourcesLine (bfOf a fi.name) fi.name) s = s :=
      sourcesSub_not_contained _ _ h
    simp only [sourcesStep, List.foldl_cons] at ih ⊢
    rw [h1]
    exact ih

/-- Helper: the services-group pass leaves a text unchanged when its pattern
has no match. -/
theorem servicesStep_no_match (a : List (FileInfo × Nat × Nat)) (L : List FileInfo)
    (s : List Char) (h : groupSplit servicesAnchor s = none) : servicesStep a L s = s := by
  induction L with
  | nil => rfl
  | cons fi rest ih =>
    simp only [servicesStep, List.foldl_cons] at ih ⊢
    by_cases hg : containsSub servicesNeedle fi.path
    · rw [if_pos hg, groupSub_no_match _ _ _ h]
      exact ih
    · rw [if_neg hg]
      exact ih

/-- Helper: the security-group pass leaves a text unchanged when its pattern
has no match. -/
theorem securityStep_no_match (a : List (FileInfo × Nat × Nat)) (L : List FileInfo)
    (s : List Char) (h : groupSplit securityAnchor s = none) : securityStep a L s = s := by
  induction L with
  | nil => rfl
  | cons fi rest ih =>
    simp only [securityStep, List.foldl_cons] at ih ⊢
    by_cases hg : containsSub securityNeedle fi.path
    · rw [if_pos hg, groupSub_no_match _ _ _ h]
      exact ih
    · rw [if_neg hg]
      exact ih

/-- Claim C7: each insertion step of the patcher whose anchor marker or
pattern is absent from its input text leaves that text unchanged (and, the
embedding functions being total like Python's str.replace and re.sub on a
failed match, raises no exception): the file-reference and build-file steps
when their literal end markers do not occur, the sources step when
"files = (" does not occur, and each group step when its pattern has no
match (in particular when its anchor text does not occur). -/
theorem c7_missing_anchor_noop (L : List FileInfo) (c : Nat) (s : List Char) :
    (containsSub fileRefMarker s = false → fileRefStep (assignIds L c) L s = s) ∧
      (containsSub buildFileMarker s = false → buildFileStep (assignIds L c) L s = s) ∧
      (containsSub filesOpen s = false → sourcesStep (assignIds L c) L s = s) ∧
      (groupSplit servicesAnchor s = none → servicesStep (assignIds L c) L s = s) ∧
      (groupSplit securityAnchor s = none → securityStep (assignIds L c) L s = s) := by
  refine ⟨fun h => replaceAll_not_contained h, fun h => replaceAll_not_contained h,
    fun h => sourcesStep_no_match _ _ _ h, fun h => servicesStep_no_match _ _ _ h,
    fun h => securityStep_no_match _ _ _ h⟩

/-- Witness for C7 on a concrete anchor-free text. -/
theorem c7_missing_anchor_noop_witness :
    fileRefStep (assignIds files_to_add 0) files_to_add "hello".data = "hello".data ∧
      buildFileStep (assignIds files_to_add 0) files_to_add "hello".data = "hello".data ∧
      sourcesStep (assignIds files_to_add 0) files_to_add "hello".data = "hello".data ∧
      servicesStep (assignIds files_to_add 0) files_to_add "hello".data = "hello".data ∧
      securityStep (assignIds files_to_add 0) files_to_add "hello".data = "hello".data :=
  ⟨(c7_missing_anchor_noop files_to_add 0 "hello".data).1 (by decide),
    (c7_missing_anchor_noop files_to_add 0 "hello".data).2.1 (by decide),
    (c7_missing_anchor_noop files_to_add 0 "hello".data).2.2.1 (by decide),
    (c7_missing_anchor_noop files_to_add 0 "hello".data).2.2.2.1 (by decide),
    (c7_missing_anchor_noop files_to_add 0 "hello".data).2.2.2.2 (by decide)⟩

/-- Helper: a matched pattern is an actual decomposition of the text. -/
theorem isPre_eq : ∀ {p s : List Char}, isPre p s = true → s = p ++ List.drop p.length s
  | [], _, _ => rfl
  | _ :: _, [], h => by simp [isPre] at h
  | a :: as, b :: bs, h => by
    simp only [isPre, Bool.and_eq_true, beq_iff_eq] at h
    obtain ⟨rfl, h2⟩ := h
    simp only [List.length_cons, List.drop_succ_cons, List.cons_append, List.cons.injEq,
      true_and]
    exact isPre_eq h2

/-- Helper: a successful findSplitAux result reassembles to the scanned
text. -/
theorem findSplitAux_join {pat : List Char} :
    ∀ {s acc pre suf : List Char}, findSplitAux pat s acc = some (pre, suf) →
      pre ++ suf = acc.reverse ++ s := by
  intro s
  induction s with
  | nil =>
    intro acc pre suf h
    simp only [findSplitAux] at h
    cases hp : isPre pat [] with
    | true =>
      rw [if_pos hp] at h
      obtain ⟨rfl, rfl⟩ := Prod.mk.injEq .. ▸ Option.some.inj h
      simp
    | false => rw [if_neg (by simp [hp])] at h; cases h
  | cons c rest ih =>
    intro acc pre suf h
    simp only [findSplitAux] at h
    cases hp : isPre pat (c :: rest) with
    | true =>
      rw [if_pos hp] at h
      obtain ⟨rfl, rfl⟩ := Prod.mk.injEq .. ▸ Option.some.inj h
      rfl
    | false =>
      rw [if_neg (by simp [hp])] at h
      have := ih h
      simpa [List.append_assoc] using this

/-- Helper: findSplit decomposes the text. -/
theorem findSplit_join {pat s pre suf : List Char} (h : findSplit pat s = some (pre, suf)) :
    s = pre ++ suf :=
  (findSplitAux_join h).symm.trans (by simp)

/-- Helper: the suffix a successful findSplitAux returns starts with the
pattern. -/
theorem findSplitAux_isPre {pat : List Char} :
    ∀ {s acc pre suf : List Char}, findSplitAux pat s acc = some (pre, suf) →
      isPre pat suf = true := by
  intro s
  induction s with
  | nil =>
    intro acc pre suf h
    simp only [findSplitAux] at h
    cases hp : isPre pat [] with
    | true =>
      rw [if_pos hp] at h
      obtain ⟨rfl, rfl⟩ := Prod.mk.injEq .. ▸ Option.some.inj h
      exact hp
    | false => rw [if_neg (by simp [hp])] at h; cases h
  | cons c rest ih =>
    intro acc pre suf h
    simp only [findSplitAux] at h
    cases hp : isPre pat (c :: rest) with
    | true =>
      rw [if_pos hp] at h
      obtain ⟨rfl, rfl⟩ := Prod.mk.injEq .. ▸ Option.some.inj h
      exact hp
    | false =>
      rw [if_neg (by simp [hp])] at h
      exact ih h

/-- Helper: the two parts tailSplitAux returns reassemble to its input. -/
theorem tailSplitAux_join :
    ∀ (t acc pend : List Char),
      (tailSplitAux t acc pend).1 ++ (tailSplitAux t acc pend).2 =
        acc.reverse ++ (pend.reverse ++ t) := by
  intro t
  induction t with
  | nil => intro acc pend; simp [tailSplitAux]
  | cons c rest ih =>
    intro acc pend
    by_cases hc : (c == ';') = true
    · have hc' : c = ';' := beq_iff_eq.mp hc
      subst hc'
      cases pend with
      | nil => simp [tailSplitAux]
      | cons p ps =>
        simp only [tailSplitAux, if_pos rfl]
        rw [show ((';' : Char) == ';') = true from rfl]
        simp only [if_true, ih]
        simp [List.reverse_append, List.append_assoc]
    · simp only [tailSplitAux, hc, Bool.false_eq_true, if_false]
      cases pend with
      | nil =>
        by_cases hw : isPySpace c = true
        · simp only [hw, if_true, ih]
          simp [List.append_assoc]
        · simp only [hw, Bool.false_eq_true, if_false, ih]
          simp [List.append_assoc]
      | cons p ps =>
        simp only [ih]
        simp [List.reverse_append, List.append_assoc]

/-- Helper: tailSplit decomposes its input. -/
theorem tailSplit_join (t : List Char) : (tailSplit t).1 ++ (tailSplit t).2 = t := by
  have h := tailSplitAux_join t [] []
  simpa [tailSplit] using h

/-- Helper: sourcesSplit decomposes the text. -/
theorem sourcesSplit_join {s pre post : List Char} (h : sourcesSplit s = some (pre, post)) :
    s = pre ++ post := by
  cases hf : findSplit filesOpen s with
  | none => simp [sourcesSplit, hf] at h
  | some p =>
    obtain ⟨p0, suf⟩ := p
    rcases htp : tailSplit (List.drop filesOpen.length suf) with ⟨consumed, rest2⟩
    simp only [sourcesSplit, hf, htp, Option.some.injEq, Prod.mk.injEq] at h
    obtain ⟨rfl, rfl⟩ := h
    have hs : s = p0 ++ suf := findSplit_join hf
    have hsuf : suf = filesOpen ++ List.drop filesOpen.length suf :=
      isPre_eq (findSplitAux_isPre hf)
    have hts : consumed ++ rest2 = List.drop filesOpen.length suf := by
      have := tailSplit_join (List.drop filesOpen.length suf)
      rw [htp] at this
      exact this
    rw [hs, hsuf, ← hts]
    simp [List.append_assoc]

/-- Helper: the two parts a successful sameLineSplitAux returns reassemble
to the scanned text, and the suffix starts with the pattern. -/
theorem sameLineSplitAux_spec {pat : List Char} :
    ∀ {t acc mid suf : List Char}, sameLineSplitAux pat t acc = some (mid, suf) →
      mid ++ suf = acc.reverse ++ t ∧ isPre pat suf = true := by
  intro t
  induction t with
  | nil =>
    intro acc mid suf h
    simp only [sameLineSplitAux] at h
    cases hp : isPre pat [] with
    | true =>
      rw [if_pos hp] at h
      obtain ⟨rfl, rfl⟩ := Prod.mk.injEq .. ▸ Option.some.inj h
      exact ⟨by simp, hp⟩
    | false => rw [if_neg (by simp [hp])] at h; cases h
  | cons c rest ih =>
    intro acc mid suf h
    simp only [sameLineSplitAux] at h
    cases hp : isPre pat (c :: rest) with
    | true =>
      rw [if_pos hp] at h
      obtain ⟨rfl, rfl⟩ := Prod.mk.injEq .. ▸ Option.some.inj h
      exact ⟨rfl, hp⟩
    | false =>
      rw [if_neg (by simp [hp])] at h
      by_cases hn : (c == '\n') = true
      · rw [if_pos hn] at h; cases h
      · rw [if_neg hn] at h
        obtain ⟨h1, h2⟩ := ih h
        exact ⟨by simpa [List.append_assoc] using h1, h2⟩

/-- Helper: groupSplit decomposes the text. -/
theorem groupSplitAux_join {anchor : List Char} :
    ∀ {s acc pre post : List Char}, groupSplitAux anchor s acc = some (pre, post) →
      pre ++ post = acc.reverse ++ s := by
  intro s
  induction s with
  | nil => intro acc pre post h; cases h
  | cons c rest ih =>
    intro acc pre post h
    simp only [groupSplitAux] at h
    cases hp : isPre anchor (c :: rest) with
    | false =>
      rw [if_neg (by simp [hp])] at h
      have := ih h
      simpa [List.append_assoc] using this
    | true =>
      rw [if_pos hp] at h
      cases hsl : sameLineSplit childrenOpen (List.drop anchor.length (c :: rest)) with
      | none =>
        rw [hsl] at h
        have := ih h
        simpa [List.append_assoc] using this
      | some q =>
        obtain ⟨mid, fromChildren⟩ := q
        rcases htp : tailSplit (List.drop childrenOpen.length fromChildren) with
          ⟨consumed, rest2⟩
        simp only [hsl, htp, Option.some.injEq, Prod.mk.injEq] at h
        obtain ⟨rfl, rfl⟩ := h
        obtain ⟨hmid, hpre2⟩ := sameLineSplitAux_spec hsl
        have hfc : fromChildren =
            childrenOpen ++ List.drop childrenOpen.length fromChildren := isPre_eq hpre2
        have hts : consumed ++ rest2 = List.drop childrenOpen.length fromChildren := by
          have := tailSplit_join (List.drop childrenOpen.length fromChildren)
          rw [htp] at this
          exact this
        have hanchor : (c :: rest) = anchor ++ List.drop anchor.length (c :: rest) :=
          isPre_eq hp
        have hmid' : mid ++ fromChildren = List.drop anchor.length (c :: rest) := by
          simpa using hmid
        calc (acc.reverse ++ anchor ++ mid ++ childrenOpen ++ consumed) ++ rest2
            = acc.reverse ++ (anchor ++ (mid ++ (childrenOpen ++ (consumed ++ rest2)))) := by
              simp [List.append_assoc]
          _ = acc.reverse ++ (anchor ++ (mid ++ fromChildren)) := by rw [hts, ← hfc]
          _ = acc.reverse ++ (anchor ++ List.drop anchor.length (c :: rest)) := by rw [hmid']
          _ = acc.reverse ++ (c :: rest) := by rw [← hanchor]

/-- Helper: groupSplit decomposes the text. -/
theorem groupSplit_join {anchor s pre post : List Char}
    (h : groupSplit anchor s = some (pre, post)) : s = pre ++ post :=
  (groupSplitAux_join h).symm.trans (by simp)

/-- Helper: a sources-pattern substitution only inserts. -/
theorem sublist_sourcesSub (line s : List Char) : s.Sublist (sourcesSub line s) := by
  unfold sourcesSub
  cases h : sourcesSplit s with
  | none => exact List.Sublist.refl s
  | some p =>
    obtain ⟨pre, post⟩ := p
    rw [sourcesSplit_join h]
    exact List.Sublist.append (List.sublist_append_left pre line)
      (List.sublist_cons_self '\n' post)

/-- Helper: a group-pattern substitution only inserts. -/
theorem sublist_groupSub (anchor line s : List Char) : s.Sublist (groupSub anchor line s) := by
  unfold groupSub
  cases h : groupSplit anchor s with
  | none => exact List.Sublist.refl s
  | some p =>
    obtain ⟨pre, post⟩ := p
    rw [groupSplit_join h]
    exact List.Sublist.append (List.sublist_append_left pre line)
      (List.sublist_cons_self '\n' post)

/-- Helper: skip mode of replaceAllAux just drops the remaining matched
characters. -/
theorem replaceAllAux_skip (old new : List Char) :
    ∀ (t : List Char) (k : Nat), replaceAllAux old new t k = replaceAllAux old new (List.drop k t) 0 := by
  intro t
  induction t with
  | nil => intro k; cases k <;> rfl
  | cons c rest ih =>
    intro k
    cases k with
    | zero => rfl
    | succ k => simpa [replaceAllAux] using ih k

/-- Helper: replacing every occurrence of a non-empty pattern by a block
followed by the pattern itself only inserts. -/
theorem sublist_replaceAllAux (old ins : List Char) (hne : old ≠ []) :
    ∀ (n : Nat) (s : List Char), s.length ≤ n →
      s.Sublist (replaceAllAux old (ins ++ old) s 0) := by
  intro n
  induction n with
  | zero =>
    intro s hs
    have : s = [] := List.length_eq_zero.mp (Nat.le_zero.mp hs)
    subst this
    exact List.Sublist.refl []
  | succ n ih =>
    intro s hs
    cases s with
    | nil => exact List.Sublist.refl []
    | cons c rest =>
      by_cases hp : isPre old (c :: rest) = true
      · simp only [replaceAllAux, hp, if_true]
        rw [replaceAllAux_skip]
        have hd : List.drop (old.length - 1) rest = List.drop old.length (c :: rest) := by
          cases old with
          | nil => cases hne rfl
          | cons o os => simp [List.length_cons]
        rw [hd]
        have hlen : (List.drop old.length (c :: rest)).length ≤ n := by
          have h1 := List.length_drop old.length (c :: rest)
          have h2 : 1 ≤ old.length := by
            cases old with
            | nil => cases hne rfl
            | cons o os => simp
          simp only [List.length_cons] at h1 hs
          omega
        have hrec := ih (List.drop old.length (c :: rest)) hlen
        conv_lhs => rw [isPre_eq hp]
        rw [List.append_assoc]
        exact List.Sublist.trans
          ((List.Sublist.refl old).append hrec)
          (List.sublist_append_right ins _)
      · simp only [replaceAllAux, hp, Bool.false_eq_true, if_false]
        exact List.Sublist.cons₂ c (ih rest (Nat.le_of_succ_le_succ hs))

/-- Helper: both marker-based insertion passes of the patcher only insert,
since each substitutes a marker by new lines followed by that marker. -/
theorem sublist_replaceAll_marker (old ins s : List Char) (h : old ≠ []) :
    s.Sublist (replaceAll old (ins ++ old) s) :=
  sublist_replaceAllAux old ins h s.length s (Nat.le_refl _)

/-- Helper: the sources-phase pass only inserts. -/
theorem sublist_sourcesStep (a : List (FileInfo × Nat × Nat)) (L : List FileInfo)
    (s : List Char) : s.Sublist (sourcesStep a L s) := by
  induction L generalizing s with
  | nil => exact List.Sublist.refl s
  | cons fi rest ih =>
    simp only [sourcesStep, List.foldl_cons] at ih ⊢
    exact (sublist_sourcesSub _ s).trans (ih _)

/-- Helper: the services-group pass only inserts. -/
theorem sublist_servicesStep (a : List (FileInfo × Nat × Nat)) (L : List FileInfo)
    (s : List Char) : s.Sublist (servicesStep a L s) := by
  induction L generalizing s with
  | nil => exact List.Sublist.refl s
  | cons fi rest ih =>
    simp only [servicesStep, List.foldl_cons] at ih ⊢
    by_cases hg : containsSub servicesNeedle fi.path
    · rw [if_pos hg]
      exact (sublist_groupSub _ _ s).trans (ih _)
    · rw [if_neg hg]
      exact ih s

/-- Helper: the security-group pass only inserts. -/
theorem sublist_securityStep (a : List (FileInfo × Nat × Nat)) (L : List FileInfo)
    (s : List Char) : s.Sublist (securityStep a L s) := by
  induction L generalizing s with
  | nil => exact List.Sublist.refl s
  | cons fi rest ih =>
    simp only [securityStep, List.foldl_cons] at ih ⊢
    by_cases hg : containsSub securityNeedle fi.path
    · rw [if_pos hg]
      exact (sublist_groupSub _ _ s).trans (ih _)
    · rw [if_neg hg]
      exact ih s

/-- Claim C10: the patcher's in-memory transformation is insert-only — for
every input text, descriptor list, and identifier counter, every character of
the input appears, in its original order, in the output: the input is a
subsequence of the patched text. -/
theorem c10_patch_insert_only (L : List FileInfo) (c : Nat) (s : List Char) :
    s.Sublist (add_files_core L c s) := by
  have h1 : s.Sublist (fileRefStep (assignIds L c) L s) := by
    unfold fileRefStep
    exact sublist_replaceAll_marker fileRefMarker _ s (by decide)
  have h2 : (fileRefStep (assignIds L c) L s).Sublist
      (buildFileStep (assignIds L c) L (fileRefStep (assignIds L c) L s)) := by
    unfold buildFileStep
    exact sublist_replaceAll_marker buildFileMarker _ _ (by decide)
  show s.Sublist (securityStep (assignIds L c) L (servicesStep (assignIds L c) L
    (sourcesStep (assignIds L c) L (buildFileStep (assignIds L c) L
      (fileRefStep (assignIds L c) L s)))))
  exact (h1.trans h2).trans ((sublist_sourcesStep _ _ _).trans
    ((sublist_servicesStep _ _ _).trans (sublist_securityStep _ _ _)))

/-- Two-build-phase demonstration text for C5: a first files list, a further
semicolon-terminated line, and a second files list. -/
def demoC5 : List Char :=
  "files = (\n\t\tAAA /* A in Sources */,\n\t);\nother = thing;\nfiles = (\n\t);\nrest".data

/-- The span the sources_pattern actually matches on demoC5: everything
through the SECOND build phase's closing, not just the first phase. -/
def demoC5matched : List Char :=
  "files = (\n\t\tAAA /* A in Sources */,\n\t);\nother = thing;\nfiles = (\n\t);\n".data

/-- Claim C5, counterexample: on demoC5 the leftmost match of
sources_pattern starts at the first "files = (" but its greedy entry matcher
consumes every following semicolon-terminated span, so the matched text
(demoC5matched) contains the whole second build phase — a second
"files = (" occurs inside it past the opening — and the descriptor's line is
appended after that, not within the first-matched build phase: the first 55
characters of the output (the entire first phase plus text up to the second
phase's opening) contain no copy of the inserted line.  This refutes
"appending the new line after the existing entries of that first-matched
build phase only". -/
theorem c5_first_phase_overshoot :
    sourcesSplit demoC5 = some (demoC5matched, "rest".data) ∧
      containsSub filesOpen (List.drop filesOpen.length demoC5matched) = true ∧
      sourcesSub (sourcesLine 1 "AutonomousSystemManager.swift".data) demoC5 =
        demoC5matched ++ sourcesLine 1 "AutonomousSystemManager.swift".data ++
          '\n' :: "rest".data ∧
      containsSub (sourcesLine 1 "AutonomousSystemManager.swift".data)
        (List.take 55 (sourcesSub (sourcesLine 1 "AutonomousSystemManager.swift".data)
          demoC5)) = false := by
  refine ⟨by decide, by decide, by decide, by decide⟩

/-- Claim C5, amended: for every input text and descriptor line, the
substitution with sources_pattern leaves the text unchanged when
"files = (" does not occur, and otherwise appends the line and a newline at
the end of the leftmost greedy match — a span that begins at the first
"files = (" but extends through every following whitespace-separated
semicolon-terminated stretch, in general past the first build phase (see the
counterexample) — leaving everything else in place. -/
theorem c5_insertion_at_match_end (line s : List Char) :
    (containsSub filesOpen s = false → sourcesSub line s = s) ∧
      ∀ pre post, sourcesSplit s = some (pre, post) →
        sourcesSub line s = pre ++ line ++ '\n' :: post ∧ s = pre ++ post := by
  refine ⟨fun h => sourcesSub_not_contained line s h, ?_⟩
  intro pre post h
  exact ⟨by simp [sourcesSub, h], sourcesSplit_join h⟩

/-- Witness for C5's amended theorem at one concrete input. -/
theorem c5_insertion_at_match_end_witness :
    sourcesSub (sourcesLine 1 "AutonomousSystemManager.swift".data)
        "junk; files = (\nAA,\n);\ntail".data =
      "junk; files = (\nAA,\n);\n".data ++
        sourcesLine 1 "AutonomousSystemManager.swift".data ++ '\n' :: "tail".data ∧
      "junk; files = (\nAA,\n);\ntail".data =
        "junk; files = (\nAA,\n);\n".data ++ "tail".data :=
  (c5_insertion_at_match_end (sourcesLine 1 "AutonomousSystemManager.swift".data)
    "junk; files = (\nAA,\n);\ntail".data).2
    "junk; files = (\nAA,\n);\n".data "tail".data (by decide)

/-- Demonstration text for C6: a Services group followed by a Security
group. -/
def demoC6 : List Char :=
  "G1 /* Core/Services */ children = (\n\t\tOld.swift,\n\t);\nG2 /* Core/Security */ children = (\n\t);\nend".data

/-- The span the services group pattern actually matches on demoC6:
everything through the SECURITY group's closing, not just the Services
group block. -/
def demoC6matched : List Char :=
  "G1 /* Core/Services */ children = (\n\t\tOld.swift,\n\t);\nG2 /* Core/Security */ children = (\n\t);\n".data

/-- Minimal marker-only project text for the orphan part of C6. -/
def demoC6b : List Char :=
  "/* Begin PBXBuildFile section */\n/* End PBXBuildFile section */\n/* Begin PBXFileReference section */\n/* End PBXFileReference section */\nend".data

/-- Claim C6, counterexample: on demoC6 the leftmost match of the
services-group pattern is anchored at "Core/Services", but its greedy entry
matcher consumes every following semicolon-terminated span, so the matched
text (demoC6matched) contains the whole Core/Security group, and the
Services descriptor's group line is appended after it — not into the first
group block: the first 53 characters of the output (the entire Services
block, up to where the Security group starts) contain no copy of the line.
This refutes "inserts one file-reference line into the first group block". -/
theorem c6_group_block_overshoot :
    groupSplit servicesAnchor demoC6 = some (demoC6matched, "end".data) ∧
      containsSub securityAnchor demoC6matched = true ∧
      groupSub servicesAnchor (groupLine 0 "AutonomousSystemManager.swift".data) demoC6 =
        demoC6matched ++ groupLine 0 "AutonomousSystemManager.swift".data ++
          '\n' :: "end".data ∧
      containsSub (groupLine 0 "AutonomousSystemManager.swift".data)
        (List.take 53 (groupSub servicesAnchor
          (groupLine 0 "AutonomousSystemManager.swift".data) demoC6)) = false := by
  refine ⟨by decide, by decide, by decide, by decide⟩

/-- Claim C6, amended: a descriptor whose path contains "Services" gets one
single-substitution with the pattern anchored on "Core/Services" (its line
is appended at the end of that pattern's leftmost greedy match, which lies at
the group's children opening but in general extends past the group block —
see the counterexample); symmetrically "Security" descriptors use the
"Core/Security"-anchored pattern; and a descriptor whose path contains
neither substring produces no group insertion at all — the whole patch run
equals just the file-reference, build-file and sources passes — while still
receiving its file-reference and build-file insertions, as the concrete
marker-only run shows (its group line appears nowhere in the output). -/
theorem c6_group_routing_amended :
    (∀ (a : List (FileInfo × Nat × Nat)) (fi : FileInfo) (s : List Char),
        containsSub servicesNeedle fi.path = true →
        servicesStep a [fi] s =
          groupSub servicesAnchor (groupLine (frOf a fi.name) fi.name) s) ∧
      (∀ (a : List (FileInfo × Nat × Nat)) (fi : FileInfo) (s : List Char),
        containsSub securityNeedle fi.path = true →
        securityStep a [fi] s =
          groupSub securityAnchor (groupLine (frOf a fi.name) fi.name) s) ∧
      (∀ (c : Nat) (s : List Char) (fi : FileInfo),
        containsSub servicesNeedle fi.path = false →
        containsSub securityNeedle fi.path = false →
        add_files_core [fi] c s =
          sourcesStep (assignIds [fi] c) [fi]
            (buildFileStep (assignIds [fi] c) [fi] (fileRefStep (assignIds [fi] c) [fi] s))) ∧
      containsSub (fileRefLine 0 "X.swift".data)
        (add_files_core [⟨"X.swift".data, "SignalAir/Core/Other/X.swift".data⟩] 0 demoC6b) =
        true ∧
      containsSub (buildFileLine 1 0 "X.swift".data)
        (add_files_core [⟨"X.swift".data, "SignalAir/Core/Other/X.swift".data⟩] 0 demoC6b) =
        true ∧
      countOccur (groupLine 0 "X.swift".data)
        (add_files_core [⟨"X.swift".data, "SignalAir/Core/Other/X.swift".data⟩] 0 demoC6b) =
        0 := by
  refine ⟨?_, ?_, ?_, by decide, by decide, by decide⟩
  · intro a fi s h
    simp [servicesStep, h]
  · intro a fi s h
    simp [securityStep, h]
  · intro c s fi h1 h2
    simp [add_files_core, servicesStep, securityStep, sourcesStep, h1, h2]

/-- Witness for C6's amended theorem at concrete inputs. -/
theorem c6_group_routing_witness :
    servicesStep (assignIds files_to_add 0)
        [⟨"AutonomousSystemManager.swift".data,
          "SignalAir/Core/Services/AutonomousSystemManager.swift".data⟩] "x".data =
      groupSub servicesAnchor
        (groupLine (frOf (assignIds files_to_add 0) "AutonomousSystemManager.swift".data)
          "AutonomousSystemManager.swift".data) "x".data ∧
      add_files_core [⟨"X.swift".data, "SignalAir/Core/Other/X.swift".data⟩] 0 "x".data =
        sourcesStep (assignIds [⟨"X.swift".data, "SignalAir/Core/Other/X.swift".data⟩] 0)
          [⟨"X.swift".data, "SignalAir/Core/Other/X.swift".data⟩]
          (buildFileStep (assignIds [⟨"X.swift".data, "SignalAir/Core/Other/X.swift".data⟩] 0)
            [⟨"X.swift".data, "SignalAir/Core/Other/X.swift".data⟩]
            (fileRefStep (assignIds [⟨"X.swift".data, "SignalAir/Core/Other/X.swift".data⟩] 0)
              [⟨"X.swift".data, "SignalAir/Core/Other/X.swift".data⟩] "x".data)) :=
  ⟨c6_group_routing_amended.1 (assignIds files_to_add 0)
      ⟨"AutonomousSystemManager.swift".data,
        "SignalAir/Core/Services/AutonomousSystemManager.swift".data⟩ "x".data (by decide),
    c6_group_routing_amended.2.2.1 0 "x".data
      ⟨"X.swift".data, "SignalAir/Core/Other/X.swift".data⟩ (by decide) (by decide)⟩

/-- First two descriptors of files_to_add (one Services path, one Security
path): the double-patch demonstration runs on this sublist so that the
twice-patched text stays within the size the kernel evaluator handles. -/
def c8Files : List FileInfo :=
  [⟨"AutonomousSystemManager.swift".data,
    "SignalAir/Core/Services/AutonomousSystemManager.swift".data⟩,
   ⟨"AutomaticSecurityMonitor.swift".data,
    "SignalAir/Core/Security/AutomaticSecurityMonitor.swift".data⟩]

/-- Minimal project text with both section markers, a sources build phase
and both group anchors. -/
def c8Base : List Char :=
  ("/* Begin PBXBuildFile section */\n/* End PBXBuildFile section */\n/* Begin PBXFileReference section */\n/* End PBXFileReference section */\nS1 /* Sources */ = isa = PBXSourcesBuildPhase; files = (\n\t\t\t);\nG1 /* Core/Services */ children = (\n\t\t);\nG2 /* Core/Security */ children = (\n\t);\nend").data

/-- The demonstration text patched once, with run counter 0 (the run draws
identifiers 0 to 3). -/
def c8Once : List Char := add_files_core c8Files 0 c8Base

/-- The once-patched text patched again with the same file list; the second
run draws the fresh identifiers 4 to 7, modelling the script's fresh random
identifiers on a rerun. -/
def c8Twice : List Char := add_files_core c8Files 4 c8Once

/-- Identifier-independent shape of a file-reference line for file n. -/
def frShape (n : List Char) : List Char :=
  " /* ".data ++ n ++ " */ = \x7bisa = PBXFileReference".data

/-- Identifier-independent shape of a build-file line for file n. -/
def bfShape (n : List Char) : List Char :=
  " /* ".data ++ n ++ " in Sources */ = \x7bisa = PBXBuildFile".data

/-- Identifier-independent shape of a sources-phase entry for file n. -/
def srcShape (n : List Char) : List Char :=
  " /* ".data ++ n ++ " in Sources */,".data

/-- Identifier-independent shape of a group-children entry for file n. -/
def grpShape (n : List Char) : List Char :=
  " /* ".data ++ n ++ " */,".data

/-- Claim C8: the patcher's text transformation is not idempotent — patching
the demonstration text once yields exactly one registration of each kind per
file (file-reference line, build-file line, sources-phase entry, group
entry), patching the result again with the same file list yields exactly two
of each (the second run uses freshly minted identifiers, so the copies share
their shape but not their identifiers), and the twice-patched text differs
from the once-patched one. -/
theorem c8_double_patch_duplicates :
    countOccur (frShape "AutonomousSystemManager.swift".data) c8Once = 1 ∧
      countOccur (frShape "AutonomousSystemManager.swift".data) c8Twice = 2 ∧
      countOccur (bfShape "AutonomousSystemManager.swift".data) c8Once = 1 ∧
      countOccur (bfShape "AutonomousSystemManager.swift".data) c8Twice = 2 ∧
      countOccur (srcShape "AutonomousSystemManager.swift".data) c8Once = 1 ∧
      countOccur (srcShape "AutonomousSystemManager.swift".data) c8Twice = 2 ∧
      countOccur (grpShape "AutonomousSystemManager.swift".data) c8Once = 1 ∧
      countOccur (grpShape "AutonomousSystemManager.swift".data) c8Twice = 2 ∧
      countOccur (frShape "AutomaticSecurityMonitor.swift".data) c8Once = 1 ∧
      countOccur (frShape "AutomaticSecurityMonitor.swift".data) c8Twice = 2 ∧
      countOccur (bfShape "AutomaticSecurityMonitor.swift".data) c8Once = 1 ∧
      countOccur (bfShape "AutomaticSecurityMonitor.swift".data) c8Twice = 2 ∧
      countOccur (srcShape "AutomaticSecurityMonitor.swift".data) c8Once = 1 ∧
      countOccur (srcShape "AutomaticSecurityMonitor.swift".data) c8Twice = 2 ∧
      countOccur (grpShape "AutomaticSecurityMonitor.swift".data) c8Once = 1 ∧
      countOccur (grpShape "AutomaticSecurityMonitor.swift".data) c8Twice = 2 ∧
      c8Twice ≠ c8Once := by
  have ha1 : countOccur (frShape "AutonomousSystemManager.swift".data) c8Once = 1 := by decide
  have ha2 : countOccur (frShape "AutonomousSystemManager.swift".data) c8Twice = 2 := by decide
  refine ⟨ha1, ha2, by decide, by decide, by decide, by decide, by decide, by decide,
    by decide, by decide, by decide, by decide, by decide, by decide, by decide, by decide,
    fun h => absurd (ha1.symm.trans (h ▸ ha2)) (by decide)⟩

/-- Helper: the sixteen possible nibble characters are never the dash
separator, and upper-casing them yields a digit or an uppercase letter. -/
theorem hex_char_cases :
    ∀ d : Nat, d < 16 →
      hexChar d ≠ '-' ∧
        (('0' ≤ pyToUpper (hexChar d) ∧ pyToUpper (hexChar d) ≤ '9') ∨
          ('A' ≤ pyToUpper (hexChar d) ∧ pyToUpper (hexChar d) ≤ 'Z')) := by
  decide

/-- Helper: removing the dash separators from the canonical UUID text leaves
exactly the thirty-two nibble characters. -/
theorem uuid_filter_dashes (r : Nat) :
    List.filter (fun c => c != '-') (uuid4Text r) = uuidHex r := by
  have hmem : ∀ ch ∈ uuidHex r, (ch != '-') = true := by
    intro ch hch
    simp only [uuidHex, List.mem_map, List.mem_range] at hch
    obtain ⟨i, hi, rfl⟩ := hch
    have h16 : hexDigit r i < 16 := Nat.mod_lt _ (by norm_num)
    simpa using (hex_char_cases _ h16).1
  have hpiece : ∀ t : List Char, t ⊆ uuidHex r → List.filter (fun c => c != '-') t = t := by
    intro t ht
    exact List.filter_eq_self.mpr fun a ha => hmem a (ht ha)
  have hcons : ∀ l : List Char,
      List.filter (fun c => c != '-') ('-' :: l) = List.filter (fun c => c != '-') l :=
    fun l => List.filter_cons_of_neg (by decide)
  unfold uuid4Text
  rw [List.filter_append, hcons, List.filter_append, hcons, List.filter_append, hcons,
    List.filter_append, hcons]
  rw [hpiece _ (List.take_subset _ _),
    hpiece _ (fun a ha => List.drop_subset _ _ (List.take_subset _ _ ha)),
    hpiece _ (fun a ha => List.drop_subset _ _ (List.take_subset _ _ ha)),
    hpiece _ (fun a ha => List.drop_subset _ _ (List.take_subset _ _ ha)),
    hpiece _ (List.drop_subset _ _)]
  have h20 : List.take 4 (List.drop 16 (uuidHex r)) ++ List.drop 20 (uuidHex r) =
      List.drop 16 (uuidHex r) := by
    have hd : List.drop 20 (uuidHex r) = List.drop 4 (List.drop 16 (uuidHex r)) := by
      rw [List.drop_drop]
    rw [hd, List.take_append_drop]
  rw [h20]
  have h16 : List.take 4 (List.drop 12 (uuidHex r)) ++ List.drop 16 (uuidHex r) =
      List.drop 12 (uuidHex r) := by
    have hd : List.drop 16 (uuidHex r) = List.drop 4 (List.drop 12 (uuidHex r)) := by
      rw [List.drop_drop]
    rw [hd, List.take_append_drop]
  rw [h16]
  have h12 : List.take 4 (List.drop 8 (uuidHex r)) ++ List.drop 12 (uuidHex r) =
      List.drop 8 (uuidHex r) := by
    have hd : List.drop 12 (uuidHex r) = List.drop 4 (List.drop 8 (uuidHex r)) := by
      rw [List.drop_drop]
    rw [hd, List.take_append_drop]
  rw [h12]
  exact List.take_append_drop 8 (uuidHex r)

/-- Claim C4: for every 128-bit random value the underlying uuid4 call
draws, generate_uuid returns exactly twenty-four characters, each a digit or
an uppercase letter, obtained from the canonical UUID text by removing the
dash separators, upper-casing, and truncating to the first twenty-four
characters (the last step is the definition of generate_uuid itself; the
first two clauses are proved). -/
theorem c4_generate_uuid_shape (r : Nat) :
    (generate_uuid r).length = 24 ∧
      ∀ ch ∈ generate_uuid r, ('0' ≤ ch ∧ ch ≤ '9') ∨ ('A' ≤ ch ∧ ch ≤ 'Z') := by
  constructor
  · unfold generate_uuid
    rw [uuid_filter_dashes r]
    have hlen : (uuidHex r).length = 32 := by simp [uuidHex]
    simp [List.length_take, hlen]
  · intro ch hch
    unfold generate_uuid at hch
    rw [uuid_filter_dashes r] at hch
    have hch' : ch ∈ List.map pyToUpper (uuidHex r) := List.take_subset _ _ hch
    simp only [uuidHex, List.map_map, List.mem_map, List.mem_range, Function.comp] at hch'
    obtain ⟨i, hi, rfl⟩ := hch'
    have h16 : hexDigit r i < 16 := Nat.mod_lt _ (by norm_num)
    exact (hex_char_cases _ h16).2

/-- Witness for C4 at the concrete random value zero and its first output
character. -/
theorem c4_generate_uuid_witness :
    (generate_uuid 0).length = 24 ∧
      (('0' ≤ ('0' : Char) ∧ ('0' : Char) ≤ '9') ∨
        ('A' ≤ ('0' : Char) ∧ ('0' : Char) ≤ 'Z')) :=
  ⟨(c4_generate_uuid_shape 0).1, (c4_generate_uuid_shape 0).2 '0' (by decide)⟩

/-- Claim C1, counterexample: in the run for project "Demo" with no
discovered files and counter start 0, the Sources entry of the target's
buildPhases list is identifier 9, minted inline at its point of use, while
the emitted PBXSourcesBuildPhase section's identifier is the later draw 12;
likewise the PBXProject section references configuration list 10 while the
emitted project-level XCConfigurationList is 17, and productRefGroup 11 and
the main group's children 7 and 8 match no emitted group (the only group has
identifier 1).  So these identifiers referenced in later sections were not
minted earlier for those entities, refuting the claim as stated. -/
theorem c1_inline_ids_dangle :
    (generate_project_pbxproj "Demo" "com.example.demo" [] 0).target.buildPhases = [9, 6] ∧
      (generate_project_pbxproj "Demo" "com.example.demo" [] 0).sourcesPhase.id = 12 ∧
      (9 : Nat) ≠ 12 ∧
      (generate_project_pbxproj "Demo" "com.example.demo" [] 0).project.buildConfigurationList =
        10 ∧
      (generate_project_pbxproj "Demo" "com.example.demo" [] 0).projectConfigList.id = 17 ∧
      (10 : Nat) ≠ 17 ∧
      (generate_project_pbxproj "Demo" "com.example.demo" [] 0).project.productRefGroup = 11 ∧
      (generate_project_pbxproj "Demo" "com.example.demo" [] 0).mainGroup =
        ⟨1, [7, 8]⟩ := by
  refine ⟨rfl, rfl, by decide, rfl, rfl, by decide, rfl, rfl⟩
example : findSplit "b".data "abc".data = some ("a".data, "bc".data) := by decide
example : tailSplit "a; \n x".data = ("a; \n ".data, "x".data) := by decide
example : tailSplit "a;".data = ("a;".data, []) := by decide
example : tailSplit "ab;;c;".data = ("ab;".data, ";c;".data) := by decide
example : sourcesSplit "xfiles = (\nA,\n);k;;".data =
    some ("xfiles = (\nA,\n);k;".data, ";".data) := by decide
example : groupSplit "Core/Services".data "x Core/Services children = (A;b".data =
    some ("x Core/Services children = (A;".data, "b".data) := by decide
example : replaceAll "b".data "XY".data "abcb".data = "aXYcXY".data := by decide
example : countOccur "aa".data "aaaa".data = 2 := by decide
